import Mathlib

/-!
Verification of the MSI signer (`src/signers/msi/signer.go`) of the relic
artifact-signing engine.

The file under `src/` is the MSI format plugin: `transform` parses the
container and optionally precomputes an extended digest, `GetReader` streams a
canonical (tar) serialization through a pipe fed by a background producer,
`sign` digests the stream and obtains a timestamped PKCS#7 blob, `Apply`
embeds the blob into the container through an atomic in-place rewriter, and
`verify` extracts and checks the embedded signature.

The collaborators the plugin calls (`lib/comdoc`, `lib/authenticode`,
`lib/atomicfile`, `lib/certloader`, the `signers` core and `pkcs`) are code of
this repository that is not under `src/`; they are modelled here from the
spec's collaborator interface descriptions (spec §6) and marked
`Modelled from the spec:` in their doc comments.  Failures of those
collaborators (I/O errors, producer failures, commit failures) are injected
through an explicit environment record `Env`, whose all-`none` value `env0` is
the failure-free run.  File-system state is threaded explicitly: an operation
that can change the on-disk container returns the visible file alongside its
result.
-/

namespace Relic

/-- Raw bytes, as a list of byte values. -/
abbrev Bytes := List Nat

/-- Error values crossing the collaborator interfaces. -/
inductive Err
  | formatError
  | streamError (code : Nat)
  | ioError (code : Nat)
  | sigMissing
  | digestMismatch
  | flagError
deriving DecidableEq

/-- A digest algorithm identifier (`opts.Hash` in the source). -/
structure HashAlg where
  id : Nat
deriving DecidableEq

/-- A loaded certificate (`certloader.Certificate`); the signer and chain it
carries are identified by `id`. -/
structure Cert where
  id : Nat
deriving DecidableEq

/-- Ideal model of a cryptographic hash: `hashBytes alg b` stands for the
digest of `b` under algorithm `alg`.  It is injective in both arguments, which
models collision-freeness. -/
def hashBytes (alg : Nat) (b : Bytes) : Bytes := alg :: b

/-- A PKCS#7 signed-data structure over a digest imprint
(`authenticode.SignMSIImprint`'s output). -/
structure Pkcs7 where
  imprint : Bytes
  alg : HashAlg
  cert : Cert
deriving DecidableEq

/-- A trust-timestamped signature envelope (`pkcs.Timestamp`'s output; the
opaque SignatureBlob consumed by `Apply`). -/
structure TimestampedSignature where
  psd : Pkcs7
  timestamped : Bool
deriving DecidableEq

/-- On-disk content of an MSI structured-storage container, at the structural
level the collaborators expose: an unsigned container with canonical content,
a signed container additionally carrying the signature blob and the optional
`MsiDigitalSignatureEx` extended digest at their defined structural
locations, or bytes that fail structural parsing. -/
inductive MsiFile
  | raw (content : Bytes)
  | signed (content : Bytes) (blob : TimestampedSignature) (exsig : Option Bytes)
  | invalid (junk : Bytes)
deriving DecidableEq

/-- `true` unless the container fails structural parsing. -/
def MsiFile.isValid : MsiFile → Bool
  | .invalid _ => false
  | _ => true

/-- A parsed compound-document structure (`comdoc.ComDoc`): the canonical
content basis of the container (the signature streams are excluded from the
canonical content, so parsing a signed and an unsigned container with the same
content yields the same structure). -/
structure ComDoc where
  content : Bytes
deriving DecidableEq

/-- Failure-injection environment for the collaborator calls: each field is
`some e` when the corresponding collaborator call fails with `e` in this run.
`canonFail = some (k, e)` makes the background canonicalization producer fail
with `e` after emitting `k` bytes. -/
structure Env where
  prehashErr : Option Err := none
  readBlobErr : Option Err := none
  openStagedErr : Option Err := none
  writeFileErr : Option Err := none
  insertErr : Option Err := none
  closeErr : Option Err := none
  commitErr : Option Err := none
  canonFail : Option (Nat × Err) := none
deriving DecidableEq

/-- The failure-free environment. -/
def env0 : Env := {}

/-- A value held by a flag bag (`pflag`-style). -/
inductive FlagVal
  | bool (b : Bool)
  | str (s : String)
deriving DecidableEq

/-- A resolved flag mapping (`opts.Flags` in the source). -/
structure FlagSet where
  entries : List (String × FlagVal)
deriving DecidableEq

/-- `GetBool` of the flag bag: returns the flag's value, or the zero value
`false` together with an error when the flag is absent or not boolean —
mirroring Go's `(value, err)` convention where the value is the zero value on
error. -/
def FlagSet.getBool (fs : FlagSet) (name : String) : Bool × Option Err :=
  match fs.entries.lookup name with
  | some (.bool b) => (b, none)
  | some (.str _) => (false, some .flagError)
  | none => (false, some .flagError)

/-- `signers.SignOpts`: digest algorithm plus resolved flags. -/
structure SignOpts where
  hash : HashAlg
  flags : FlagSet
deriving DecidableEq

/-- `signers.VerifyOpts`: when `noDigests` is set, digest recomputation is
skipped during verification. -/
structure VerifyOpts where
  noDigests : Bool
deriving DecidableEq

/-- Modelled from the spec: structured-storage open-for-read(handle) →
parsed-structure | FormatError (`lib/comdoc.ReadFile`, not under `src/`).
Reading never mutates; a malformed container is a format error. -/
def comdoc.ReadFile : MsiFile → Except Err ComDoc
  | .raw c => .ok ⟨c⟩
  | .signed c _ _ => .ok ⟨c⟩
  | .invalid _ => .error .formatError

/-- Modelled from the spec: Prehash(parsed-structure, algorithm) →
extended-digest bytes | error (`lib/authenticode.PrehashMSI`, not under
`src/`): a digest of the canonical content computed ahead of the main signing
flow. -/
def authenticode.PrehashMSI (env : Env) (cdf : ComDoc) (alg : HashAlg) : Except Err Bytes :=
  match env.prehashErr with
  | some e => .error e
  | none => .ok (hashBytes alg.id cdf.content)

/-- `msiTransformer` from the source: the open container handle `f` (its
content as captured when opened), the parsed structure `cdf`, and the optional
precomputed extended digest `exsig` (Go's nil slice is `none`). -/
structure MsiTransformer where
  f : MsiFile
  cdf : ComDoc
  exsig : Option Bytes
deriving DecidableEq

/-- `transform` from the source: parse the container; read the
`no-extended-sig` flag ignoring the error; unless it is set, synchronously
precompute the extended digest; return the transformer. -/
def transform (env : Env) (f : MsiFile) (opts : SignOpts) : Except Err MsiTransformer :=
  match comdoc.ReadFile f with
  | .error e => .error e
  | .ok cdf =>
    match (opts.flags.getBool "no-extended-sig").fst with
    | true => .ok ⟨f, cdf, none⟩
    | false =>
      match authenticode.PrehashMSI env cdf opts.hash with
      | .error e => .error e
      | .ok exsig => .ok ⟨f, cdf, some exsig⟩

/-- How a delivered byte stream terminates: clean end-of-stream, or a
terminal error. -/
inductive StreamEnd
  | eof
  | fail (e : Err)
deriving DecidableEq

/-- What the consumer of the pipe observes: the bytes delivered before the
stream terminated, and how it terminated. -/
structure ByteStream where
  bytes : Bytes
  ending : StreamEnd
deriving DecidableEq

/-- Modelled from the spec: Canonicalize(parsed-structure) → lazy byte
sequence (`lib/authenticode.MsiToTar` composed with the `io.Pipe` delivery,
neither under `src/`): the background producer serializes the canonical
content into the pipe and the pipe is closed with the producer's error, so
the consumer sees either all canonical bytes then end-of-stream, or the
prefix produced before the failure point then a terminal error. -/
def authenticode.MsiToTar (env : Env) (cdf : ComDoc) : ByteStream :=
  match env.canonFail with
  | none => ⟨cdf.content, .eof⟩
  | some (k, e) => ⟨cdf.content.take k, .fail e⟩

/-- Result of `GetReader`: the (unmutated) transformer, the stream delivered
to the consumer, the declared length, and the immediate error return. -/
structure ReaderResult where
  transformer : MsiTransformer
  stream : ByteStream
  length : Int
  err : Option Err
deriving DecidableEq

/-- `GetReader` from the source: start the background producer behind a pipe
and return the read end, length `-1`, and no error.  The receiver is not
mutated. -/
def MsiTransformer.GetReader (t : MsiTransformer) (env : Env) : ReaderResult :=
  ⟨t, authenticode.MsiToTar env t.cdf, -1, none⟩

/-- The digest imprint over a canonical byte stream: the plain digest, or,
when the extended digest is enabled, a combined digest incorporating the
extended value (spec §4.4). -/
def imprintDigest (alg : HashAlg) (canon : Bytes) (extended : Bool) : Bytes :=
  match extended with
  | true => hashBytes alg.id (hashBytes alg.id canon ++ canon)
  | false => hashBytes alg.id canon

/-- Modelled from the spec: the signing step's running digest over all stream
bytes, optionally combined with the extended value
(`lib/authenticode.DigestMsiTar`, not under `src/`); any failure from the
stream aborts the whole operation, so a terminal stream error is returned as
the digest error. -/
def authenticode.DigestMsiTar (s : ByteStream) (alg : HashAlg) (extended : Bool) : Except Err Bytes :=
  match s.ending with
  | .fail e => .error e
  | .eof => .ok (imprintDigest alg s.bytes extended)

/-- Modelled from the spec: external signer capability
produce-signature-over-digest with expose-certificate-chain
(`lib/authenticode.SignMSIImprint`, not under `src/`). -/
def authenticode.SignMSIImprint (sum : Bytes) (alg : HashAlg) (cert : Cert) : Except Err Pkcs7 :=
  .ok ⟨sum, alg, cert⟩

/-- Modelled from the spec: Timestamp(raw-signature, certificate, options) →
SignatureBlob (`signers/pkcs.Timestamp`, not under `src/`). -/
def pkcs.Timestamp (psd : Pkcs7) (_cert : Cert) (_opts : SignOpts) : Except Err TimestampedSignature :=
  .ok ⟨psd, true⟩

/-- `sign` from the source: read the `no-extended-sig` flag ignoring the
error, digest the canonical stream (extended unless the flag is set), sign
the imprint, timestamp the result. -/
def sign (r : ByteStream) (cert : Cert) (opts : SignOpts) : Except Err TimestampedSignature :=
  match authenticode.DigestMsiTar r opts.hash (!(opts.flags.getBool "no-extended-sig").fst) with
  | .error e => .error e
  | .ok sum =>
    match authenticode.SignMSIImprint sum opts.hash cert with
    | .error e => .error e
    | .ok psd => pkcs.Timestamp psd cert opts

/-- Modelled from the spec: the Atomic Rewriter's staging step
(`lib/atomicfile.WriteInPlace`, not under `src/`): stage a copy of the opened
container; the staged copy is only published by an explicit commit and is
discarded otherwise. -/
def atomicfile.WriteInPlace (env : Env) (src : MsiFile) : Except Err MsiFile :=
  match env.openStagedErr with
  | some e => .error e
  | none => .ok src

/-- Modelled from the spec: structured-storage
open-for-write-in-place(handle, destinationPath) → staged-writable-handle
(`lib/comdoc.WriteFile`, not under `src/`): re-parses the staged copy for
writing. -/
def comdoc.WriteFile (env : Env) (staged : MsiFile) : Except Err ComDoc :=
  match env.writeFileErr with
  | some e => .error e
  | none => comdoc.ReadFile staged

/-- Modelled from the spec: Embed-signature(writable-structure, blob,
extendedDigest) → () | error (`lib/authenticode.InsertMSISignature`, not
under `src/`): sets the signature blob and the extended digest at their
defined structural locations of the staged container. -/
def authenticode.InsertMSISignature (env : Env) (cdf : ComDoc) (blob : TimestampedSignature)
    (exsig : Option Bytes) : Except Err MsiFile :=
  match env.insertErr with
  | some e => .error e
  | none => .ok (.signed cdf.content blob exsig)

instance {ε α : Type} [DecidableEq ε] [DecidableEq α] : DecidableEq (Except ε α) := fun x y =>
  match x, y with
  | .ok a, .ok b => if h : a = b then .isTrue (by simp [h]) else .isFalse (by simp [h])
  | .error a, .error b => if h : a = b then .isTrue (by simp [h]) else .isFalse (by simp [h])
  | .ok _, .error _ => .isFalse (by simp)
  | .error _, .ok _ => .isFalse (by simp)

/-- Result of `Apply`: the error return, and the file visible at the
destination path afterwards. -/
structure ApplyResult where
  result : Except Err Unit
  disk : MsiFile
deriving DecidableEq

/-- `Apply` from the source, over the visible file `orig` at the destination
path: read the signature blob from the result stream, open the atomic
rewriter over the opened container handle, re-open the staged structure for
writing, embed the blob and the precomputed extended digest, close the
writer, commit.  The deferred close of the rewriter discards the staged file
on every error path, so the visible file stays `orig` unless the commit
succeeds. -/
def MsiTransformer.Apply (t : MsiTransformer) (env : Env) (orig : MsiFile)
    (blobInput : TimestampedSignature) : ApplyResult :=
  match env.readBlobErr with
  | some e => ⟨.error e, orig⟩
  | none =>
  match atomicfile.WriteInPlace env t.f with
  | .error e => ⟨.error e, orig⟩
  | .ok staged =>
  match comdoc.WriteFile env staged with
  | .error e => ⟨.error e, orig⟩
  | .ok wcdf =>
  match authenticode.InsertMSISignature env wcdf blobInput t.exsig with
  | .error e => ⟨.error e, orig⟩
  | .ok newFile =>
  match env.closeErr with
  | some e => ⟨.error e, orig⟩
  | none =>
  match env.commitErr with
  | some e => ⟨.error e, orig⟩
  | none => ⟨.ok (), newFile⟩

/-- The embedded-signature record extracted by verification
(`authenticode.MSISignature`-equivalent): the hash function used and the
timestamped signature. -/
structure MsiSigInfo where
  hashFunc : HashAlg
  ts : TimestampedSignature
deriving DecidableEq

/-- Modelled from the spec: Verify-embedded(read-structure, skipDigests) →
result | error (`lib/authenticode.VerifyMSI`, not under `src/`): extract the
embedded signature; unless digest recomputation is skipped, recompute the
canonical digest (extended when an extended digest is present) and compare it
with the value the signature was produced over. -/
def authenticode.VerifyMSI (f : MsiFile) (noDigests : Bool) : Except Err MsiSigInfo :=
  match f with
  | .invalid _ => .error .formatError
  | .raw _ => .error .sigMissing
  | .signed content blob exsig =>
    match noDigests with
    | true => .ok ⟨blob.psd.alg, blob⟩
    | false =>
      if blob.psd.imprint = imprintDigest blob.psd.alg content exsig.isSome
      then .ok ⟨blob.psd.alg, blob⟩
      else .error .digestMismatch

/-- `signers.Signature` as populated by the source's `verify`: the hash
function and the timestamped X509 signature. -/
structure Signature where
  hash : HashAlg
  x509Signature : TimestampedSignature
deriving DecidableEq

/-- `verify` from the source: run `authenticode.VerifyMSI` and wrap the
single extracted signature in a one-element list. -/
def verify (f : MsiFile) (opts : VerifyOpts) : Except Err (List Signature) :=
  match authenticode.VerifyMSI f opts.noDigests with
  | .error e => .error e
  | .ok sig => .ok [⟨sig.hashFunc, sig.ts⟩]

/-- Modelled from the spec: the signing core's control flow (spec §2, the
`signers` package, not under `src/`): transform → read side → signing step →
write side → commit.  Returns the operation's error status together with the
file visible at the container's path afterwards; any failure before the write
side's commit leaves the original visible. -/
def signFlow (env : Env) (f : MsiFile) (cert : Cert) (opts : SignOpts) :
    Except Err Unit × MsiFile :=
  match transform env f opts with
  | .error e => (.error e, f)
  | .ok t =>
    match (t.GetReader env).err with
    | some e => (.error e, f)
    | none =>
      match sign (t.GetReader env).stream cert opts with
      | .error e => (.error e, f)
      | .ok blob =>
        match (t.Apply env f blob).result with
        | .error e => (.error e, f)
        | .ok _ => (.ok (), (t.Apply env f blob).disk)

/-! ## Claims -/

/-- Claim C7: for every Transformer and every run of the background producer,
the streaming read side never declares a total length: GetReader returns the
negative sentinel -1 for the declared length and no error. -/
theorem getReader_declares_unknown_length (t : MsiTransformer) (env : Env) :
    (t.GetReader env).length = -1 ∧ (t.GetReader env).err = none :=
  ⟨rfl, rfl⟩

/-- Claim C9: whenever the underlying extraction succeeds, verify returns
exactly one signature record — the one carrying the extracted hash function
and timestamped signature — never zero and never more than one. -/
theorem verify_returns_exactly_one_record (f : MsiFile) (opts : VerifyOpts) (sig : MsiSigInfo)
    (h : authenticode.VerifyMSI f opts.noDigests = .ok sig) :
    verify f opts = .ok [⟨sig.hashFunc, sig.ts⟩] ∧
    ∀ l, verify f opts = .ok l → l.length = 1 := by
  constructor
  · simp [verify, h]
  · intro l hl
    simp [verify, h] at hl
    simp [← hl]

/-- Witness for C9 at a concrete signed container, with digest recomputation
skipped. -/
theorem verify_returns_exactly_one_record_witness :
    verify (.signed [1] ⟨⟨[0], ⟨2⟩, ⟨5⟩⟩, true⟩ none) ⟨true⟩ =
      .ok [⟨⟨2⟩, ⟨⟨[0], ⟨2⟩, ⟨5⟩⟩, true⟩⟩] :=
  (verify_returns_exactly_one_record (.signed [1] ⟨⟨[0], ⟨2⟩, ⟨5⟩⟩, true⟩ none) ⟨true⟩
    ⟨⟨2⟩, ⟨⟨[0], ⟨2⟩, ⟨5⟩⟩, true⟩⟩ rfl).left

/-- Claim C6: if the background canonicalization producer fails at any byte
offset, the consumer sees a terminal stream error (not a clean end-of-stream),
the sign operation aborts with that error, and the container on disk is left
untouched by the whole flow. -/
theorem stream_failure_is_terminal_and_aborts (env : Env) (f : MsiFile) (t : MsiTransformer)
    (cert : Cert) (opts : SignOpts) (k : Nat) (e : Err)
    (hc : env.canonFail = some (k, e))
    (ht : transform env f opts = .ok t) :
    (t.GetReader env).stream.ending = .fail e ∧
    (t.GetReader env).stream.ending ≠ .eof ∧
    sign (t.GetReader env).stream cert opts = .error e ∧
    signFlow env f cert opts = (.error e, f) := by
  have hs : (t.GetReader env).stream = ⟨t.cdf.content.take k, .fail e⟩ := by
    simp [MsiTransformer.GetReader, authenticode.MsiToTar, hc]
  have hsig : sign (t.GetReader env).stream cert opts = .error e := by
    simp [hs, sign, authenticode.DigestMsiTar]
  refine ⟨by simp [hs], by simp [hs], hsig, ?_⟩
  have hsig2 : sign (authenticode.MsiToTar env t.cdf) cert opts = .error e := hsig
  simp [signFlow, ht, MsiTransformer.GetReader, hsig2]

/-- Witness for C6: a producer failing after 0 bytes on a small valid
container. -/
theorem stream_failure_is_terminal_and_aborts_witness :
    signFlow { canonFail := some (0, .streamError 7) } (.raw [1, 2]) ⟨5⟩ ⟨⟨2⟩, ⟨[]⟩⟩ =
      (.error (.streamError 7), .raw [1, 2]) :=
  (stream_failure_is_terminal_and_aborts { canonFail := some (0, .streamError 7) }
    (.raw [1, 2]) ⟨.raw [1, 2], ⟨[1, 2]⟩, some [2, 1, 2]⟩ ⟨5⟩ ⟨⟨2⟩, ⟨[]⟩⟩ 0
    (.streamError 7) rfl rfl).right.right.right

/-- Claim C8: a container whose structure fails to parse makes transform
return a format error and no Transformer, with the on-disk file unchanged by
the whole flow; likewise a failure of the extended-digest precomputation
makes transform return that error with the container unmodified. -/
theorem transform_failure_no_mutation (env : Env) (opts : SignOpts) (cert : Cert) :
    (∀ j, transform env (.invalid j) opts = .error .formatError ∧
      signFlow env (.invalid j) cert opts = (.error .formatError, .invalid j)) ∧
    (∀ f cdf e, comdoc.ReadFile f = .ok cdf → env.prehashErr = some e →
      (opts.flags.getBool "no-extended-sig").fst = false →
      transform env f opts = .error e ∧ signFlow env f cert opts = (.error e, f)) := by
  constructor
  · intro j
    have h1 : transform env (.invalid j) opts = .error .formatError := by
      simp [transform, comdoc.ReadFile]
    exact ⟨h1, by simp [signFlow, h1]⟩
  · intro f cdf e hread hpre hflag
    have h1 : transform env f opts = .error e := by
      simp [transform, hread, hflag, authenticode.PrehashMSI, hpre]
    exact ⟨h1, by simp [signFlow, h1]⟩

/-- Witness for C8: an unparsable container, and a prehash failure on a valid
container. -/
theorem transform_failure_no_mutation_witness :
    transform { prehashErr := some (.ioError 3) } (.invalid [0]) ⟨⟨2⟩, ⟨[]⟩⟩ =
      .error .formatError ∧
    transform { prehashErr := some (.ioError 3) } (.raw [1]) ⟨⟨2⟩, ⟨[]⟩⟩ =
      .error (.ioError 3) :=
  ⟨((transform_failure_no_mutation { prehashErr := some (.ioError 3) } ⟨⟨2⟩, ⟨[]⟩⟩ ⟨1⟩).left
      [0]).left,
   ((transform_failure_no_mutation { prehashErr := some (.ioError 3) } ⟨⟨2⟩, ⟨[]⟩⟩ ⟨1⟩).right
      (.raw [1]) ⟨[1]⟩ (.ioError 3) rfl rfl rfl).left⟩

/-- Claim C10: an error while reading the no-extended-sig flag is silently
discarded and the flag is treated as false — the Go zero value — so the
extended digest is still computed and the operation proceeds instead of being
rejected with a configuration error. -/
theorem flag_read_error_treated_as_false (opts : SignOpts) (e : Err)
    (herr : (opts.flags.getBool "no-extended-sig").snd = some e) :
    (opts.flags.getBool "no-extended-sig").fst = false ∧
    ∀ env f cdf, comdoc.ReadFile f = .ok cdf → env.prehashErr = none →
      transform env f opts = .ok ⟨f, cdf, some (hashBytes opts.hash.id cdf.content)⟩ := by
  have hfst : (opts.flags.getBool "no-extended-sig").fst = false := by
    unfold FlagSet.getBool at herr ⊢
    rcases hlook : opts.flags.entries.lookup "no-extended-sig" with _ | v
    · simp [hlook]
    · cases v with
      | bool b => simp [hlook] at herr
      | str s => simp [hlook]
  refine ⟨hfst, ?_⟩
  intro env f cdf hread hpre
  simp [transform, hread, hfst, authenticode.PrehashMSI, hpre]

/-- Witness for C10: an options value whose flag bag lacks the flag entirely,
so reading it errors; transform still computes the extended digest. -/
theorem flag_read_error_treated_as_false_witness :
    transform env0 (.raw [1]) ⟨⟨2⟩, ⟨[]⟩⟩ = .ok ⟨.raw [1], ⟨[1]⟩, some [2, 1]⟩ :=
  (flag_read_error_treated_as_false ⟨⟨2⟩, ⟨[]⟩⟩ .flagError rfl).right env0 (.raw [1])
    ⟨[1]⟩ rfl rfl

/-- Claim C3: whenever Apply fails — at reading the signature blob, opening
the staged writer, re-opening the structure, embedding, closing, or even at
the commit itself — the staged file is discarded and the file visible at the
original path is exactly the pre-operation one; only a successful commit
publishes the rewritten container. -/
theorem apply_failure_preserves_original (t : MsiTransformer) (env : Env) (orig : MsiFile)
    (blob : TimestampedSignature) (e : Err)
    (h : (t.Apply env orig blob).result = .error e) :
    (t.Apply env orig blob).disk = orig := by
  obtain ⟨fi, cdf, ex⟩ := t
  obtain ⟨p, rb, os, wf, ins, cl, cm, cf⟩ := env
  cases rb <;> cases os <;> cases wf <;> cases ins <;> cases cl <;> cases cm <;> cases fi <;>
    simp_all [MsiTransformer.Apply, atomicfile.WriteInPlace, comdoc.WriteFile,
      comdoc.ReadFile, authenticode.InsertMSISignature]

/-- Witness for C3: an embedding failure on a concrete container leaves the
original visible. -/
theorem apply_failure_preserves_original_witness :
    ((⟨.raw [1], ⟨[1]⟩, none⟩ : MsiTransformer).Apply { insertErr := some (.ioError 9) }
      (.raw [1]) ⟨⟨[0], ⟨2⟩, ⟨5⟩⟩, true⟩).disk = .raw [1] :=
  apply_failure_preserves_original ⟨.raw [1], ⟨[1]⟩, none⟩ { insertErr := some (.ioError 9) }
    (.raw [1]) ⟨⟨[0], ⟨2⟩, ⟨5⟩⟩, true⟩ (.ioError 9) rfl

/-- Claim C4: when the extended-digest flag is enabled, a successful
transform carries an extended digest that was computed synchronously from the
structure parsed at transform time, and invoking the read side — under any
behaviour of the background producer whatsoever — neither changes the
transformer nor the snapshotted digest, so its value is independent of when
and how the background stream runs. -/
theorem extended_digest_precomputed (env : Env) (f : MsiFile) (opts : SignOpts)
    (t : MsiTransformer) (cdf : ComDoc)
    (hflag : (opts.flags.getBool "no-extended-sig").fst = false)
    (hread : comdoc.ReadFile f = .ok cdf)
    (ht : transform env f opts = .ok t) :
    t.exsig = some (hashBytes opts.hash.id cdf.content) ∧
    ∀ env2 : Env, (t.GetReader env2).transformer = t ∧
      (t.GetReader env2).transformer.exsig = t.exsig := by
  have hex : t.exsig = some (hashBytes opts.hash.id cdf.content) := by
    rcases hp : env.prehashErr with _ | e <;>
      simp_all [transform, hread, hflag, authenticode.PrehashMSI] <;>
      simp [← ht]
  exact ⟨hex, fun env2 => ⟨rfl, rfl⟩⟩

/-- Witness for C4 on a concrete container with the flag left at its
default. -/
theorem extended_digest_precomputed_witness :
    (⟨.raw [3], ⟨[3]⟩, some [2, 3]⟩ : MsiTransformer).exsig = some (hashBytes 2 [3]) :=
  (extended_digest_precomputed env0 (.raw [3]) ⟨⟨2⟩, ⟨[]⟩⟩ ⟨.raw [3], ⟨[3]⟩, some [2, 3]⟩
    ⟨[3]⟩ rfl rfl rfl).left

/-- Claim C5: with no-extended-sig set, a successful transform computes no
extended digest (the transformer carries none) and a successful Apply embeds
none; with the flag at its default false, the digest is computed at transform
time and that same value is embedded by Apply. -/
theorem no_extended_sig_controls_compute_and_embed (env : Env) (f : MsiFile)
    (opts : SignOpts) (t : MsiTransformer)
    (ht : transform env f opts = .ok t) :
    ((opts.flags.getBool "no-extended-sig").fst = true → t.exsig = none) ∧
    ((opts.flags.getBool "no-extended-sig").fst = false → ∃ d, t.exsig = some d) ∧
    ∀ env2 orig blob, (t.Apply env2 orig blob).result = .ok () →
      (t.Apply env2 orig blob).disk = .signed t.cdf.content blob t.exsig := by
  rcases hread : comdoc.ReadFile f with e | cdf
  · simp [transform, hread] at ht
  refine ⟨?_, ?_, ?_⟩
  · intro hflag
    simp_all [transform, hread, hflag]
    simp [← ht]
  · intro hflag
    rcases hp : env.prehashErr with _ | e <;>
      simp_all [transform, hread, hflag, authenticode.PrehashMSI] <;>
      simp [← ht]
  · intro env2 orig blob hok
    have hcdf : comdoc.ReadFile t.f = .ok t.cdf := by
      rcases hflag : (opts.flags.getBool "no-extended-sig").fst with _ | _ <;>
        rcases hp : env.prehashErr with _ | e <;>
        simp_all [transform, hread, hflag, authenticode.PrehashMSI] <;>
        simp [← ht, hread]
    obtain ⟨p, rb, os, wf, ins, cl, cm, cf⟩ := env2
    cases rb <;> cases os <;> cases wf <;> cases ins <;> cases cl <;> cases cm <;>
      simp_all [MsiTransformer.Apply, atomicfile.WriteInPlace, comdoc.WriteFile,
        authenticode.InsertMSISignature]

/-- Witness for C5: a transform with the flag set carries no extended digest;
one with the flag absent (hence false) carries one. -/
theorem no_extended_sig_controls_compute_and_embed_witness :
    (⟨.raw [1], ⟨[1]⟩, none⟩ : MsiTransformer).exsig = none ∧
    ∃ d, (⟨.raw [1], ⟨[1]⟩, some [2, 1]⟩ : MsiTransformer).exsig = some d :=
  ⟨(no_extended_sig_controls_compute_and_embed env0 (.raw [1])
      ⟨⟨2⟩, ⟨[("no-extended-sig", .bool true)]⟩⟩ ⟨.raw [1], ⟨[1]⟩, none⟩ rfl).left rfl,
   (no_extended_sig_controls_compute_and_embed env0 (.raw [1]) ⟨⟨2⟩, ⟨[]⟩⟩
      ⟨.raw [1], ⟨[1]⟩, some [2, 1]⟩ rfl).right.left rfl⟩

/-- Claim C1: for every container that parses and every certificate, the
failure-free sign flow succeeds and the subsequent verify succeeds, returning
a signature record whose certificate is the one used for signing and whose
digest algorithm is the one given in the sign options. -/
theorem sign_then_verify_roundtrip (f : MsiFile) (cert : Cert) (opts : SignOpts)
    (hv : f.isValid = true) :
    ∃ f2 r,
      signFlow env0 f cert opts = (.ok (), f2) ∧
      verify f2 ⟨false⟩ = .ok [r] ∧
      r.x509Signature.psd.cert = cert ∧
      r.hash = opts.hash := by
  rcases hread : comdoc.ReadFile f with e | cdf
  · cases f <;> simp_all [MsiFile.isValid, comdoc.ReadFile]
  cases hb : (opts.flags.getBool "no-extended-sig").fst with
  | false =>
    refine ⟨.signed cdf.content
        ⟨⟨imprintDigest opts.hash cdf.content true, opts.hash, cert⟩, true⟩
        (some (hashBytes opts.hash.id cdf.content)),
      ⟨opts.hash, ⟨⟨imprintDigest opts.hash cdf.content true, opts.hash, cert⟩, true⟩⟩,
      ?_, ?_, rfl, rfl⟩
    · simp [signFlow, transform, hread, hb, authenticode.PrehashMSI, env0,
        MsiTransformer.GetReader, authenticode.MsiToTar, sign, authenticode.DigestMsiTar,
        imprintDigest, authenticode.SignMSIImprint, pkcs.Timestamp, MsiTransformer.Apply,
        atomicfile.WriteInPlace, comdoc.WriteFile, authenticode.InsertMSISignature]
    · simp [verify, authenticode.VerifyMSI, imprintDigest]
  | true =>
    refine ⟨.signed cdf.content
        ⟨⟨imprintDigest opts.hash cdf.content false, opts.hash, cert⟩, true⟩ none,
      ⟨opts.hash, ⟨⟨imprintDigest opts.hash cdf.content false, opts.hash, cert⟩, true⟩⟩,
      ?_, ?_, rfl, rfl⟩
    · simp [signFlow, transform, hread, hb, env0,
        MsiTransformer.GetReader, authenticode.MsiToTar, sign, authenticode.DigestMsiTar,
        imprintDigest, authenticode.SignMSIImprint, pkcs.Timestamp, MsiTransformer.Apply,
        atomicfile.WriteInPlace, comdoc.WriteFile, authenticode.InsertMSISignature]
    · simp [verify, authenticode.VerifyMSI, imprintDigest]

/-- Witness for C1 on a concrete one-byte container with default options. -/
theorem sign_then_verify_roundtrip_witness :
    ∃ f2 r,
      signFlow env0 (.raw [1]) ⟨5⟩ ⟨⟨2⟩, ⟨[]⟩⟩ = (.ok (), f2) ∧
      verify f2 ⟨false⟩ = .ok [r] ∧
      r.x509Signature.psd.cert = ⟨5⟩ ∧
      r.hash = ⟨2⟩ :=
  sign_then_verify_roundtrip (.raw [1]) ⟨5⟩ ⟨⟨2⟩, ⟨[]⟩⟩ rfl

/-- Counterexample to claim C2: the transformer keeps no invocation state, so
a second Apply on the same instance does not fail with a state error — on a
concrete container both the first and the second invocation return success. -/
theorem apply_second_invocation_not_rejected :
    ((⟨.raw [1], ⟨[1]⟩, some [2, 1]⟩ : MsiTransformer).Apply env0 (.raw [1])
      ⟨⟨[9], ⟨2⟩, ⟨5⟩⟩, true⟩).result = .ok () ∧
    ((⟨.raw [1], ⟨[1]⟩, some [2, 1]⟩ : MsiTransformer).Apply env0
      (((⟨.raw [1], ⟨[1]⟩, some [2, 1]⟩ : MsiTransformer).Apply env0 (.raw [1])
        ⟨⟨[9], ⟨2⟩, ⟨5⟩⟩, true⟩).disk)
      ⟨⟨[9], ⟨2⟩, ⟨5⟩⟩, true⟩).result = .ok () :=
  ⟨rfl, rfl⟩

/-- Claim C2 as amended: the transformer records no invocation state, so a
second failure-free Apply on the same instance is not rejected with a state
error — it succeeds, re-running the whole embed against a fresh staged copy
of the originally opened container; the published artifact carries the single
freshly embedded signature (the signature location is overwritten, the
artifact is not double-embedded). -/
theorem apply_second_invocation_reembeds (t : MsiTransformer) (orig : MsiFile)
    (blob1 blob2 : TimestampedSignature) (cdf : ComDoc)
    (hread : comdoc.ReadFile t.f = .ok cdf) :
    (t.Apply env0 orig blob1).result = .ok () ∧
    (t.Apply env0 (t.Apply env0 orig blob1).disk blob2).result = .ok () ∧
    (t.Apply env0 (t.Apply env0 orig blob1).disk blob2).disk =
      .signed cdf.content blob2 t.exsig := by
  refine ⟨?_, ?_, ?_⟩ <;>
    simp [MsiTransformer.Apply, env0, atomicfile.WriteInPlace, comdoc.WriteFile,
      hread, authenticode.InsertMSISignature]

/-- Witness for the amended C2 on a concrete container and two blobs. -/
theorem apply_second_invocation_reembeds_witness :
    ((⟨.raw [1], ⟨[1]⟩, none⟩ : MsiTransformer).Apply env0
      ((⟨.raw [1], ⟨[1]⟩, none⟩ : MsiTransformer).Apply env0 (.raw [1])
        ⟨⟨[8], ⟨2⟩, ⟨5⟩⟩, true⟩).disk
      ⟨⟨[9], ⟨2⟩, ⟨5⟩⟩, true⟩).disk = .signed [1] ⟨⟨[9], ⟨2⟩, ⟨5⟩⟩, true⟩ none :=
  (apply_second_invocation_reembeds ⟨.raw [1], ⟨[1]⟩, none⟩ (.raw [1])
    ⟨⟨[8], ⟨2⟩, ⟨5⟩⟩, true⟩ ⟨⟨[9], ⟨2⟩, ⟨5⟩⟩, true⟩ ⟨[1]⟩ rfl).right.right

end Relic
